import Mathlib

/-!
Shallow embedding of the lp586x LED-matrix driver crate.

The embedding follows the crate's sources:
  * `src/lib.rs`      — device variants, `Dot`, dot-group packing, PWM access
  * `src/interface.rs`— register-protocol framing for SPI and I2C transports
  * `src/gfx.rs` / `src/egfx.rs` — the 1x2 composited display
  * `src/eg_text.rs`  — horizontal scroll offset sequence

Register traffic is modelled explicitly: a write is a `RegWrite` (start
address plus payload bytes), the register file is a function `Nat → Nat`
(one byte per address), and a Rust `panic!`/failed `assert!`/out-of-bounds
index is modelled as `Except.error ()`.
-/

namespace Lp586x

/-- Error enum of the driver (`Error` in `src/lib.rs`).  `src/lib.rs` declares
`Interface` and `BufferOverrun`; the `sizeMismatch` variant is the
`Error::SizeMismatch` value used by `Lp586xDisplay1x2::new` in `src/gfx.rs`
(its declaration is in a part of the crate not present under `src/`, matching
the spec's size-mismatch error of the compositor). -/
inductive LpError
  | interface
  | bufferOverrun
  | sizeMismatch
deriving DecidableEq, Repr

/-- The sealed device variants of `src/lib.rs` (`Variant0` … `Variant8`). -/
inductive DeviceVariant
  | variant0
  | variant1
  | variant2
  | variant4
  | variant8
deriving DecidableEq, Repr

/-- `DeviceVariant::NUM_LINES` for each sealed variant. -/
def DeviceVariant.numLines : DeviceVariant → Nat
  | .variant0 => 11
  | .variant1 => 1
  | .variant2 => 2
  | .variant4 => 4
  | .variant8 => 8

/-- `DeviceVariant::NUM_CURRENT_SINKS` (fixed default of 18). -/
def NUM_CURRENT_SINKS : Nat := 18

/-- `DeviceVariant::NUM_DOTS = NUM_LINES * NUM_CURRENT_SINKS`. -/
def DeviceVariant.numDots (dv : DeviceVariant) : Nat :=
  dv.numLines * NUM_CURRENT_SINKS

theorem numDots_le (dv : DeviceVariant) : dv.numDots ≤ 198 := by
  cases dv <;> decide

namespace Register

/-- Modelled from the spec: `src/register.rs` is not under `src/`; the spec
only fixes that the PWM brightness block is a contiguous register block
(base + per-dot offset).  The numeric base is irrelevant to every claim,
which speak of addresses relative to `PWM_BRIGHTNESS_START`; the LP5860
register map places the block at 0x200. -/
def PWM_BRIGHTNESS_START : Nat := 0x200

/-- Modelled from the spec: `src/register.rs` is not under `src/`.  The
dot-group-select block base; the crate's own test in `src/lib.rs`
(`test_set_dot_groups`) pins the value 0x00C. -/
def DOT_GROUP_SELECT_START : Nat := 0x00C

end Register

/-- `DotGroup` from `src/lib.rs`. -/
inductive DotGroup
  | none
  | group0
  | group1
  | group2
deriving DecidableEq, Repr

/-- `DotGroup::register_value` from `src/lib.rs`. -/
def DotGroup.registerValue : DotGroup → Nat
  | .none => 0
  | .group0 => 0b01
  | .group1 => 0b10
  | .group2 => 0b11

/-- `Dot::with_index` from `src/lib.rs`: fails (the source panics) iff
`index / 18 > NUM_LINES`, otherwise returns the constructed index. -/
def Dot.with_index (dv : DeviceVariant) (index : Nat) : Option Nat :=
  if index / 18 > dv.numLines then Option.none else some index

/-- One multi-register write issued through `RegisterAccess::write_registers`:
start register plus payload bytes. -/
structure RegWrite where
  addr : Nat
  data : List Nat
deriving DecidableEq, Repr

/-! ## Register-file semantics of the transport

`write_registers(start, data)` writes `data` to consecutive registers
starting at `start`; reads return the stored byte. -/

/-- Store a byte list at consecutive addresses of the register file. -/
def writeBytes (st : Nat → Nat) (addr : Nat) : List Nat → (Nat → Nat)
  | [] => st
  | b :: bs => writeBytes (fun a => if a = addr then b else st a) (addr + 1) bs

/-- Apply one `RegWrite` to the register file. -/
def applyWrite (st : Nat → Nat) (w : RegWrite) : Nat → Nat :=
  writeBytes st w.addr w.data

/-- `RegisterAccess::read_register`: a one-byte read. -/
def read_register (st : Nat → Nat) (register : Nat) : Nat :=
  st register

/-- `RegisterAccess::read_register_wide`: two consecutive bytes combined
little-endian (`u16::from_le_bytes`). -/
def read_register_wide (st : Nat → Nat) (register : Nat) : Nat :=
  st register + 256 * st (register + 1)

/-! ## PWM access (`PwmAccess` impls in `src/lib.rs`)

`set_pwm` panics (modelled `Except.error ()`) when
`values.len() + start > NUM_DOTS`, otherwise issues one multi-register
write.  Register addresses are `u16`, hence the `% 65536`. -/

/-- `PwmAccess<u8>::set_pwm` for `DataMode8Bit`. -/
def set_pwm8 (dv : DeviceVariant) (start_dot : Nat) (values : List Nat) :
    Except Unit RegWrite :=
  if values.length + start_dot > dv.numDots then .error ()
  else .ok ⟨(Register.PWM_BRIGHTNESS_START + start_dot) % 65536, values⟩

/-- `PwmAccess<u8>::get_pwm`: an unconditional one-byte read at
`PWM_BRIGHTNESS_START + dot` (no range check). -/
def get_pwm8 (st : Nat → Nat) (dot : Nat) : Nat :=
  read_register st ((Register.PWM_BRIGHTNESS_START + dot) % 65536)

/-- The little-endian byte stream `set_pwm` (16-bit mode) builds from its
`u16` values: the loop stores `value.to_le_bytes()` at buffer offsets
`idx*2, idx*2+1` and the transmitted prefix `buffer[..values.len()*2]` is
exactly the concatenation of those pairs. -/
def pwmLeBytes : List Nat → List Nat
  | [] => []
  | v :: vs => v % 256 :: v / 256 % 256 :: pwmLeBytes vs

/-- `PwmAccess<u16>::set_pwm` for `DataMode16Bit`. -/
def set_pwm16 (dv : DeviceVariant) (start_dot : Nat) (values : List Nat) :
    Except Unit RegWrite :=
  if values.length + start_dot > dv.numDots then .error ()
  else .ok ⟨(Register.PWM_BRIGHTNESS_START + start_dot * 2) % 65536, pwmLeBytes values⟩

/-- `PwmAccess<u16>::get_pwm`: an unconditional wide read at
`PWM_BRIGHTNESS_START + dot * 2` (no range check). -/
def get_pwm16 (st : Nat → Nat) (dot : Nat) : Nat :=
  read_register_wide st ((Register.PWM_BRIGHTNESS_START + dot * 2) % 65536)

/-! ## Dot-group packing (`Lp586x::set_dot_groups` in `src/lib.rs`) -/

/-- One loop step of `set_dot_groups`: OR the 2-bit group code of dot `i`
into `buffer[i/18*5 + i%18/4]` at bit position `i%18%4 * 2`; an index
outside the 54-byte buffer is the source's out-of-bounds panic
(`Option.none`). -/
def packDotGroupsAux (buffer : List Nat) (i : Nat) : List DotGroup → Option (List Nat)
  | [] => some buffer
  | g :: gs =>
    let b := i / 18 * 5 + i % 18 / 4
    if hb : b < buffer.length then
      packDotGroupsAux
        (buffer.set b ((buffer.get ⟨b, hb⟩) ||| (g.registerValue <<< (i % 18 % 4 * 2))))
        (i + 1) gs
    else Option.none

/-- `Lp586x::set_dot_groups`: asserts `1 ≤ len ≤ NUM_DOTS`, packs into a
54-byte buffer, and transmits the prefix `buffer[..=last_group]` to
`DOT_GROUP_SELECT_START`. -/
def set_dot_groups (dv : DeviceVariant) (dot_groups : List DotGroup) :
    Except Unit RegWrite :=
  if dot_groups.length > dv.numDots ∨ dot_groups.length = 0 then .error ()
  else
    match packDotGroupsAux (List.replicate 54 0) 0 dot_groups with
    | some buffer =>
      let last_group := (dot_groups.length - 1) / 18 * 5 + (dot_groups.length - 1) % 18 / 4
      if last_group + 1 ≤ buffer.length then
        .ok ⟨Register.DOT_GROUP_SELECT_START, buffer.take (last_group + 1)⟩
      else .error ()
    | Option.none => .error ()

/-! ## Register protocol framing (`src/interface.rs`) -/

/-- `spi_transmission_header`: two header bytes for a register operation,
`[(register >> 2) as u8, (register << 6) as u8 | (write ? 1 << 5 : 0)]`. -/
def spi_transmission_header (register : Nat) (write : Bool) : List Nat :=
  [(register >>> 2) % 256,
   ((register <<< 6) % 256) ||| (if write then 1 <<< 5 else 0)]

/-- `I2cInterface::address_with_register`:
`(address & !0b11) | ((register & 0x300) >> 8)`. -/
def address_with_register (address register : Nat) : Nat :=
  (address &&& 0xFC) ||| ((register &&& 0x300) >>> 8)

/-- `MAX_DATA_SIZE` of `I2cInterface::write_registers`. -/
def MAX_DATA_SIZE : Nat := 0x400

/-- `I2cInterface::write_registers` (legacy `embedded-hal` binding,
`src/interface.rs`): a payload longer than `MAX_DATA_SIZE` yields
`Error::BufferOverrun` before any bus traffic; otherwise the register
pointer byte (`start_register as u8`) is concatenated in front of the
payload and the composite buffer is sent in one bus write to the
register-dependent device address. -/
def i2c_write_registers (address start_register : Nat) (data : List Nat) :
    Except LpError (Nat × List Nat) :=
  if data.length > MAX_DATA_SIZE then .error .bufferOverrun
  else .ok (address_with_register address start_register, start_register % 256 :: data)

/-! ## 1x2 composited display (`src/gfx.rs` and `src/egfx.rs`) -/

/-- `embedded_graphics::geometry::Size` (`u32` fields). -/
structure Size where
  width : Nat
  height : Nat
deriving DecidableEq, Repr

/-- `Rectangle::new(Point::zero(), size).contains(point)` of
embedded-graphics: the half-open box `[0, width) × [0, height)`. -/
abbrev rectContains (s : Size) (p : Int × Int) : Prop :=
  0 ≤ p.1 ∧ p.1 < (s.width : Int) ∧ 0 ≤ p.2 ∧ p.2 < (s.height : Int)

/-- `Lp586xDisplay1x2::size()`: width of the upper constituent, twice its
height. -/
def displaySize (upper : Size) : Size :=
  ⟨upper.width, upper.height * 2⟩

@[simp] theorem displaySize_width (u : Size) : (displaySize u).width = u.width := rfl

@[simp] theorem displaySize_height (u : Size) : (displaySize u).height = u.height * 2 := rfl

/-- `Lp586xDisplay1x2::controller_idx_and_offset` (identical in
`src/gfx.rs` and `src/egfx.rs`): flip the point to
`(size().width - x, y)`, drop it when outside the display's bounding box,
route it to controller 0 with offset `y*width + x` when inside the upper
constituent's box and to controller 1 with offset
`(y - upper.height)*width + x` otherwise.  The offset is cast `as u16`. -/
def controller_idx_and_offset (upper : Size) (point : Int × Int) :
    Option (Nat × Nat) :=
  if rectContains (displaySize upper) (((upper.width : Int)) - point.1, point.2) then
    if rectContains upper (((upper.width : Int)) - point.1, point.2) then
      some (0, ((point.2 * (upper.width : Int) + ((upper.width : Int) - point.1)) % 65536).toNat)
    else
      some (1, (((point.2 - (upper.height : Int)) * (upper.width : Int)
        + ((upper.width : Int) - point.1)) % 65536).toNat)
  else
    Option.none

/-- `Lp586xDisplay1x2::draw_pixel`: resolve the point, issue a single-dot
`set_pwm` on the resolved controller, and silently succeed (`Ok(())`,
no write) for unresolved points. -/
def draw_pixel (upper : Size) (dv : DeviceVariant) (point : Int × Int)
    (luma : Nat) : Except Unit (Option (Nat × RegWrite)) :=
  match controller_idx_and_offset upper point with
  | some (0, offset) => (set_pwm8 dv offset [luma]).map (fun w => some (0, w))
  | some (1, offset) => (set_pwm8 dv offset [luma]).map (fun w => some (1, w))
  | _ => .ok Option.none

/-- `Lp586xDisplay1x2::new` of `src/gfx.rs`: size-mismatch check; the
composed display (its two constituents, modelled by their sizes) is
returned on success. -/
def gfx_new (upperSize lowerSize : Size) : Except LpError (Size × Size) :=
  if upperSize = lowerSize then .ok (upperSize, lowerSize)
  else .error .sizeMismatch

/-- `Lp586xDisplay1x2::new` of `src/egfx.rs`: unconditional construction,
no size check, cannot fail. -/
def egfx_new (upperSize lowerSize : Size) : Size × Size :=
  (upperSize, lowerSize)

/-! ## Scroll animator (`src/eg_text.rs`) -/

/-- The inclusive ascending integer range `a..=b` of Rust. -/
def intRangeIncl (a b : Int) : List Int :=
  (List.range (b + 1 - a).toNat).map (fun k : Nat => a + (k : Int))

/-- `HScroll::initial_x_offset`: the virtual surface's width. -/
def initial_x_offset (upper : Size) : Int :=
  ((displaySize upper).width : Int)

/-- `HScroll::h_scroll_position_iter`:
`(-drawable_width..=initial_x_offset()).rev().map(|x_off| Point::new(x_off, 0))`. -/
def h_scroll_position_iter (drawableWidth : Nat) (upper : Size) : List (Int × Int) :=
  ((intRangeIncl (-(drawableWidth : Int)) (initial_x_offset upper)).reverse).map
    (fun xOff => (xOff, 0))

/-! ## Helper lemmas -/

theorem writeBytes_eq_of_lt (bs : List Nat) (st : Nat → Nat) (addr a : Nat)
    (h : a < addr) : writeBytes st addr bs a = st a := by
  induction bs generalizing st addr with
  | nil => rfl
  | cons b bs ih =>
    simp only [writeBytes]
    rw [ih _ _ (by omega)]
    simp only [if_neg (by omega : ¬ a = addr)]

theorem writeBytes_getD (bs : List Nat) (st : Nat → Nat) (addr k : Nat)
    (h : k < bs.length) : writeBytes st addr bs (addr + k) = bs.getD k 0 := by
  induction bs generalizing st addr k with
  | nil => simp at h
  | cons b bs ih =>
    cases k with
    | zero =>
      simp only [writeBytes, Nat.add_zero, List.getD_cons_zero]
      rw [writeBytes_eq_of_lt _ _ _ _ (by omega)]
      simp
    | succ k =>
      simp only [writeBytes, List.getD_cons_succ]
      rw [show addr + (k + 1) = (addr + 1) + k by omega]
      exact ih _ _ _ (by simpa using h)

theorem pwmLeBytes_length (values : List Nat) :
    (pwmLeBytes values).length = 2 * values.length := by
  induction values with
  | nil => rfl
  | cons v vs ih => simp only [pwmLeBytes, List.length_cons, ih]; omega

theorem pwmLeBytes_getD_even (values : List Nat) (i : Nat) (h : i < values.length) :
    (pwmLeBytes values).getD (2 * i) 0 = values.getD i 0 % 256 := by
  induction values generalizing i with
  | nil => simp at h
  | cons v vs ih =>
    cases i with
    | zero => rfl
    | succ i =>
      rw [show 2 * (i + 1) = (2 * i + 1) + 1 by omega]
      simp only [pwmLeBytes, List.getD_cons_succ]
      exact ih i (by simpa using h)

theorem pwmLeBytes_getD_odd (values : List Nat) (i : Nat) (h : i < values.length) :
    (pwmLeBytes values).getD (2 * i + 1) 0 = values.getD i 0 / 256 % 256 := by
  induction values generalizing i with
  | nil => simp at h
  | cons v vs ih =>
    cases i with
    | zero => rfl
    | succ i =>
      rw [show 2 * (i + 1) + 1 = (2 * i + 1 + 1) + 1 by omega]
      simp only [pwmLeBytes, List.getD_cons_succ]
      exact ih i (by simpa using h)

/-! ## Claim C2 -/

/-- Claim C2 (code bug): `Dot::with_index` promises to reject every index
outside the variant's capabilities, but for the 11-line variant it accepts
index 198 (`198 / 18 = 11 ≤ NUM_LINES`) although the variant has exactly
`NUM_DOTS = 198` dots, i.e. valid indices 0..197: the constructed `Dot` is
out of range. -/
theorem dot_with_index_accepts_out_of_range :
    Dot.with_index .variant0 198 = some 198 ∧
    DeviceVariant.numDots .variant0 = 198 :=
  ⟨rfl, rfl⟩

/-! ## Claim C3 -/

/-- Claim C3 counterexample: the `src/egfx.rs` constructor of the 1x2
composited display performs no size check at all — constructing from an
18×11 upper and an 18×4 lower constituent succeeds and returns the
composed display, where the claim demands a size-mismatch failure. -/
theorem egfx_new_no_size_check_cex :
    egfx_new ⟨18, 11⟩ ⟨18, 4⟩ = (⟨18, 11⟩, ⟨18, 4⟩) ∧ (⟨18, 11⟩ : Size) ≠ ⟨18, 4⟩ :=
  ⟨rfl, by decide⟩

/-- Claim C3 (amended): only the `src/gfx.rs` constructor validates sizes —
it succeeds exactly when the two constituents report equal sizes and fails
with the size-mismatch error exactly when they differ; the `src/egfx.rs`
constructor is infallible and returns the composition unconditionally. -/
theorem display1x2_new_size_check (u l : Size) :
    (gfx_new u l = .ok (u, l) ↔ u = l) ∧
    (gfx_new u l = .error .sizeMismatch ↔ u ≠ l) ∧
    egfx_new u l = (u, l) := by
  unfold gfx_new egfx_new
  by_cases h : u = l
  · simp [h]
  · simp [h]

/-! ## Claim C4 -/

/-- Claim C4 (confirmed): in both data modes `set_pwm` rejects — fail-fast,
with no register write issued — exactly the requests with
`start + values.len() > NUM_DOTS`, and for every in-range request it issues
the multi-register write (8-bit: raw bytes at `PWM_BRIGHTNESS_START + start`;
16-bit: little-endian pairs at `PWM_BRIGHTNESS_START + start*2`). -/
theorem set_pwm_bounds_check (dv : DeviceVariant) (start : Nat)
    (values8 values16 : List Nat) :
    ((set_pwm8 dv start values8).isOk ↔ start + values8.length ≤ dv.numDots) ∧
    ((set_pwm16 dv start values16).isOk ↔ start + values16.length ≤ dv.numDots) ∧
    (start + values8.length ≤ dv.numDots →
      set_pwm8 dv start values8 = .ok ⟨Register.PWM_BRIGHTNESS_START + start, values8⟩) ∧
    (start + values16.length ≤ dv.numDots →
      set_pwm16 dv start values16 =
        .ok ⟨Register.PWM_BRIGHTNESS_START + start * 2, pwmLeBytes values16⟩) := by
  have h198 := numDots_le dv
  have hreg : Register.PWM_BRIGHTNESS_START = 512 := rfl
  refine ⟨?_, ?_, ?_, ?_⟩
  · unfold set_pwm8
    by_cases h : values8.length + start > dv.numDots
    · rw [if_pos h]; simp only [Except.isOk, Except.isOk.eq_def]
      constructor
      · intro hc; exact absurd hc (by decide)
      · intro hc; omega
    · rw [if_neg h]; simp only [Except.isOk, Except.isOk.eq_def]
      constructor
      · intro _; omega
      · intro _; rfl
  · unfold set_pwm16
    by_cases h : values16.length + start > dv.numDots
    · rw [if_pos h]; simp only [Except.isOk, Except.isOk.eq_def]
      constructor
      · intro hc; exact absurd hc (by decide)
      · intro hc; omega
    · rw [if_neg h]; simp only [Except.isOk, Except.isOk.eq_def]
      constructor
      · intro _; omega
      · intro _; rfl
  · intro h
    unfold set_pwm8
    rw [if_neg (by omega)]
    rw [show (Register.PWM_BRIGHTNESS_START + start) % 65536
        = Register.PWM_BRIGHTNESS_START + start by rw [hreg]; omega]
  · intro h
    unfold set_pwm16
    rw [if_neg (by omega)]
    rw [show (Register.PWM_BRIGHTNESS_START + start * 2) % 65536
        = Register.PWM_BRIGHTNESS_START + start * 2 by rw [hreg]; omega]

/-- Witness for C4: a concrete in-range request in each mode, with the
issued register write. -/
theorem set_pwm_bounds_check_instance :
    set_pwm8 .variant0 190 [1, 2, 3, 4, 5, 6, 7, 8] = .ok ⟨702, [1, 2, 3, 4, 5, 6, 7, 8]⟩ ∧
    set_pwm16 .variant0 196 [300, 1000] = .ok ⟨904, [44, 1, 232, 3]⟩ :=
  ⟨(set_pwm_bounds_check .variant0 190 [1, 2, 3, 4, 5, 6, 7, 8] [300, 1000]).2.2.1
      (by decide),
   (set_pwm_bounds_check .variant0 196 [1, 2, 3, 4, 5, 6, 7, 8] [300, 1000]).2.2.2
      (by decide)⟩

/-! ## Claim C5 -/

/-- The 18-element line-0 assignment `[G0,G1,G2,…]` of the spec's packing
example (also the crate's `test_set_dot_groups`). -/
def dotGroupsLine0 : List DotGroup :=
  [.group0, .group1, .group2, .group0, .group1, .group2,
   .group0, .group1, .group2, .group0, .group1, .group2,
   .group0, .group1, .group2, .group0, .group1, .group2]

set_option maxRecDepth 4000 in
/-- Claim C5 (code bug): the 18-element example does pack into exactly the
five claimed bytes transmitted to the dot-group-select block, but the
general packing formula fails on the 11-line variant: a 197-element
assignment — allowed by the function's own `assert!(len <= num_dots())`
and its documentation — needs byte `196/18*5 + (196%18)/4 = 54` of the
54-byte buffer, an out-of-bounds access (the buffer is one byte too small
for 11 lines × 5 bytes = 55). -/
theorem set_dot_groups_pack_and_overflow :
    set_dot_groups .variant0 dotGroupsLine0 =
      .ok ⟨Register.DOT_GROUP_SELECT_START, [0x79, 0x9E, 0xE7, 0x79, 0x0E]⟩ ∧
    196 / 18 * 5 + 196 % 18 / 4 = 54 ∧
    set_dot_groups .variant0 (List.replicate 197 DotGroup.group0) = .error () ∧
    (List.replicate 197 DotGroup.group0).length ≤ DeviceVariant.numDots .variant0 :=
  ⟨rfl, rfl, rfl, by decide⟩

/-! ## Claim C6 -/

/-- Claim C6 (confirmed): for every 10-bit register address the serial
transmission header is `byte0 = address >> 2` and `byte1` the low two
address bits shifted to the top, OR'd with 0x20 exactly for a write. -/
theorem spi_header_spec (register : Nat) (h : register < 1024) :
    spi_transmission_header register true
      = [register >>> 2, ((register % 4) <<< 6) ||| 0x20] ∧
    spi_transmission_header register false
      = [register >>> 2, (register % 4) <<< 6] := by
  have e1 : (register >>> 2) % 256 = register >>> 2 := by
    simp only [Nat.shiftRight_eq_div_pow]
    norm_num
    omega
  have e2 : (register <<< 6) % 256 = (register % 4) <<< 6 := by
    simp only [Nat.shiftLeft_eq]
    norm_num
    omega
  unfold spi_transmission_header
  rw [e1, e2]
  refine ⟨rfl, ?_⟩
  norm_num

/-- Witness for C6: register 0x38B frames as `[0xE2, 0xE0]` for a write and
`[0xE2, 0xC0]` for a read. -/
theorem spi_header_spec_instance :
    spi_transmission_header 0x38B true = [0xE2, 0xE0] ∧
    spi_transmission_header 0x38B false = [0xE2, 0xC0] :=
  ⟨((spi_header_spec 0x38B (by decide)).1).trans (by decide),
   ((spi_header_spec 0x38B (by decide)).2).trans (by decide)⟩

/-! ## Claim C9 -/

/-- Claim C9 (confirmed): on the two-wire transport, `write_registers`
returns the dedicated buffer-overrun error — before any bus transfer —
exactly when the payload exceeds 1024 bytes, and otherwise sends the
register-pointer byte (`start & 0xFF`) concatenated in front of the
payload as one outbound buffer in a single bus write. -/
theorem i2c_write_registers_spec (address start_register : Nat) (data : List Nat) :
    (i2c_write_registers address start_register data = .error .bufferOverrun
      ↔ 1024 < data.length) ∧
    (data.length ≤ 1024 →
      i2c_write_registers address start_register data =
        .ok (address_with_register address start_register,
             start_register % 256 :: data)) := by
  unfold i2c_write_registers MAX_DATA_SIZE
  constructor
  · by_cases h : data.length > 1024
    · rw [if_pos (by omega)]
      simp only [true_iff, h]
    · rw [if_neg (by omega)]
      constructor
      · intro hc; exact absurd hc (by simp)
      · intro hc; omega
  · intro h
    rw [if_neg (by omega)]

/-- Witness for C9: writing one byte to register 0x38B over base address 0
targets effective device address 3 and sends `[0x8B, payload]`. -/
theorem i2c_write_registers_spec_instance :
    i2c_write_registers 0 0x38B [0xAB] = .ok (3, [0x8B, 0xAB]) :=
  (i2c_write_registers_spec 0 0x38B [0xAB]).2 (by decide)

/-! ## Claim C10 -/

/-- Claim C10 (confirmed): `get_pwm` performs no range validation against
the device variant's dot count — even for `dot ≥ NUM_DOTS` it issues the
read at `PWM_BRIGHTNESS_START + dot` (8-bit mode) respectively
`PWM_BRIGHTNESS_START + dot*2` (16-bit mode, two bytes little-endian) and
returns the transport's result; there is no error or rejection branch
(addresses are `u16`, hence the wrap-around `% 65536`). -/
theorem get_pwm_no_validation (dv : DeviceVariant) (st : Nat → Nat) (dot : Nat)
    (h : dv.numDots ≤ dot) :
    get_pwm8 st dot = st ((Register.PWM_BRIGHTNESS_START + dot) % 65536) ∧
    get_pwm16 st dot = st ((Register.PWM_BRIGHTNESS_START + dot * 2) % 65536)
      + 256 * st ((Register.PWM_BRIGHTNESS_START + dot * 2) % 65536 + 1) :=
  ⟨rfl, rfl⟩

/-- Witness for C10: dot 198 is out of range for every variant (max 198
dots), yet both reads are issued and return the register-file contents. -/
theorem get_pwm_no_validation_instance :
    get_pwm8 (fun a => a) 198 = 710 ∧ get_pwm16 (fun a => a) 198 = 233612 :=
  get_pwm_no_validation .variant0 (fun a => a) 198 (by decide)

/-! ## Claim C7 -/

/-- Claim C7 (confirmed): in 16-bit mode `set_pwm(start, values)` issues a
single multi-register write of little-endian pairs starting at
`PWM_BRIGHTNESS_START + start*2`, `get_pwm(dot)` performs the wide
little-endian read at `PWM_BRIGHTNESS_START + dot*2`, and after applying
the write to the register file every written dot reads back unchanged. -/
theorem pwm16_roundtrip (st : Nat → Nat) (dv : DeviceVariant) (start : Nat)
    (values : List Nat) (i : Nat)
    (hlen : start + values.length ≤ dv.numDots)
    (hi : i < values.length)
    (hvals : ∀ v ∈ values, v < 65536) :
    set_pwm16 dv start values =
      .ok ⟨Register.PWM_BRIGHTNESS_START + start * 2, pwmLeBytes values⟩ ∧
    get_pwm16
      (applyWrite st ⟨Register.PWM_BRIGHTNESS_START + start * 2, pwmLeBytes values⟩)
      (start + i) = values.getD i 0 := by
  have h198 := numDots_le dv
  have hreg : Register.PWM_BRIGHTNESS_START = 512 := rfl
  constructor
  · unfold set_pwm16
    rw [if_neg (by omega)]
    rw [show (Register.PWM_BRIGHTNESS_START + start * 2) % 65536
        = Register.PWM_BRIGHTNESS_START + start * 2 by rw [hreg]; omega]
  · unfold get_pwm16 applyWrite read_register_wide
    rw [show (Register.PWM_BRIGHTNESS_START + (start + i) * 2) % 65536
        = (Register.PWM_BRIGHTNESS_START + start * 2) + 2 * i by rw [hreg]; omega]
    rw [show (Register.PWM_BRIGHTNESS_START + start * 2) + 2 * i + 1
        = (Register.PWM_BRIGHTNESS_START + start * 2) + (2 * i + 1) by omega]
    rw [writeBytes_getD _ _ _ _ (by rw [pwmLeBytes_length]; omega),
        writeBytes_getD _ _ _ _ (by rw [pwmLeBytes_length]; omega)]
    rw [pwmLeBytes_getD_even _ _ hi, pwmLeBytes_getD_odd _ _ hi]
    have hv : values.getD i 0 < 65536 := by
      rw [List.getD_eq_getElem _ _ hi]
      exact hvals _ (List.getElem_mem hi)
    omega

/-- Witness for C7: writing dots `[300, 1000]` at start 0 then reading dot 1
back yields 1000 (and the transmitted bytes are the little-endian pairs). -/
theorem pwm16_roundtrip_instance :
    set_pwm16 .variant0 0 [300, 1000] = .ok ⟨512, [44, 1, 232, 3]⟩ ∧
    get_pwm16 (applyWrite (fun _ => 0) ⟨512, [44, 1, 232, 3]⟩) 1 = 1000 := by
  have h := pwm16_roundtrip (fun _ => 0) .variant0 0 [300, 1000] 1
    (by decide) (by decide) (by decide)
  exact ⟨h.1, h.2⟩

/-! ## Claim C8 -/

/-- Closed form of the scroll sequence: element `k` is
`(surface_width - k, 0)`. -/
theorem h_scroll_closed_form (dw : Nat) (upper : Size) :
    h_scroll_position_iter dw upper =
      (List.range (upper.width + dw + 1)).map
        (fun k : Nat => (((upper.width : Int) - (k : Int)), (0 : Int))) := by
  unfold h_scroll_position_iter intRangeIncl initial_x_offset
  rw [displaySize_width]
  rw [show (((upper.width : Nat) : Int) + 1 - -((dw : Nat) : Int)).toNat
      = upper.width + dw + 1 by omega]
  apply List.ext_getElem
  · simp
  · intro n h1 h2
    simp only [List.getElem_map, List.getElem_reverse, List.length_map,
      List.length_range, List.getElem_range]
    have hn : n < upper.width + dw + 1 := by
      simpa using h2
    refine Prod.ext ?_ rfl
    simp only
    omega

/-- Claim C8 (confirmed): for a drawable of width `Dw` over a surface of
width `Sw`, the horizontal scroll offset sequence has exactly
`Sw + Dw + 1` elements, starts at x-offset `Sw` (the surface width, equal
to `initial_x_offset`), ends at x-offset `-Dw`, and is strictly
descending. -/
theorem h_scroll_sequence_spec (dw : Nat) (upper : Size) :
    (h_scroll_position_iter dw upper).length = upper.width + dw + 1 ∧
    (h_scroll_position_iter dw upper).head? = some ((upper.width : Int), 0) ∧
    (h_scroll_position_iter dw upper).getLast? = some (-(dw : Int), 0) ∧
    (h_scroll_position_iter dw upper).Chain' (fun p q => q.1 < p.1) := by
  rw [h_scroll_closed_form]
  refine ⟨by simp, ?_, ?_, ?_⟩
  · rw [show upper.width + dw + 1 = (upper.width + dw) + 1 from rfl,
        List.range_succ_eq_map]
    simp
  · rw [show upper.width + dw + 1 = (upper.width + dw) + 1 from rfl,
        List.range_succ, List.map_append, List.map_cons, List.map_nil,
        List.getLast?_concat]
    simp only [Option.some.injEq]
    refine Prod.ext ?_ rfl
    simp only
    push_cast
    ring
  · apply List.Pairwise.chain'
    rw [List.pairwise_map]
    apply (List.pairwise_lt_range _).imp
    intro a b hab
    dsimp only
    omega

/-! ## Claim C1 -/

/-- Claim C1 counterexample: with 18-wide, 11-tall constituents the point
`(0, 0)` lies in `[0,W) × [0,2H)` with `y < H`, so the claim demands
controller 0, but the flip `W - x` sends it to x-coordinate `W = 18`,
outside the bounding box: the code maps it to no controller and
`draw_pixel` is a no-op `Ok`.  Conversely `(18, 0)` lies outside
`[0,W) × [0,2H)` — the claim demands no controller — yet the code maps it
to controller 0 at offset 0. -/
theorem controller_mapping_cex :
    controller_idx_and_offset ⟨18, 11⟩ (0, 0) = Option.none ∧
    draw_pixel ⟨18, 11⟩ .variant0 (0, 0) 255 = .ok Option.none ∧
    controller_idx_and_offset ⟨18, 11⟩ (18, 0) = some (0, 0) :=
  ⟨by decide, rfl, by decide⟩

/-- Claim C1 (amended): with the flip `x' = W - x`, every point with
`0 < x ≤ W` and `0 ≤ y < H` maps to controller 0 with offset `y*W + x'`,
every point with `0 < x ≤ W` and `H ≤ y < 2H` maps to controller 1 with
offset `(y-H)*W + x'`, and every other point maps to no controller, with
`draw_pixel` a no-op returning `Ok`.  The claim's half-open x-range
`[0, W)` is off by one against the code: `x = 0` is dropped and `x = W`
is mapped.  (The size bound keeps the `as u16` offset cast exact.) -/
theorem controller_mapping_amended (u : Size) (x y : Int)
    (hsize : 2 * u.height * u.width ≤ 65536) :
    ((0 < x ∧ x ≤ (u.width : Int) ∧ 0 ≤ y ∧ y < (u.height : Int)) →
      controller_idx_and_offset u (x, y)
        = some (0, (y * (u.width : Int) + ((u.width : Int) - x)).toNat)) ∧
    ((0 < x ∧ x ≤ (u.width : Int) ∧ (u.height : Int) ≤ y ∧ y < 2 * (u.height : Int)) →
      controller_idx_and_offset u (x, y)
        = some (1, ((y - (u.height : Int)) * (u.width : Int) + ((u.width : Int) - x)).toNat)) ∧
    ((x ≤ 0 ∨ (u.width : Int) < x ∨ y < 0 ∨ 2 * (u.height : Int) ≤ y) →
      controller_idx_and_offset u (x, y) = Option.none ∧
      ∀ dv luma, draw_pixel u dv (x, y) luma = .ok Option.none) := by
  have hw0 : (0 : Int) ≤ (u.width : Int) := Int.natCast_nonneg _
  have hh0 : (0 : Int) ≤ (u.height : Int) := Int.natCast_nonneg _
  have hsize' : 2 * (u.height : Int) * (u.width : Int) ≤ 65536 := by
    exact_mod_cast hsize
  refine ⟨fun hc => ?_, fun hc => ?_, fun hc => ?_⟩
  · obtain ⟨h1, h2, h3, h4⟩ := hc
    have hc1 : rectContains (displaySize u) ((u.width : Int) - x, y) := by
      dsimp only [rectContains, displaySize_width, displaySize_height]
      push_cast
      refine ⟨by omega, by omega, by omega, by omega⟩
    have hc2 : rectContains u ((u.width : Int) - x, y) := by
      dsimp only [rectContains]
      refine ⟨by omega, by omega, by omega, by omega⟩
    unfold controller_idx_and_offset
    rw [if_pos hc1, if_pos hc2]
    dsimp only
    have hnn : 0 ≤ y * (u.width : Int) + ((u.width : Int) - x) := by
      have := mul_nonneg h3 hw0
      linarith
    have hub : y * (u.width : Int) + ((u.width : Int) - x) < 65536 := by
      have hyw : y * (u.width : Int) ≤ ((u.height : Int) - 1) * (u.width : Int) :=
        mul_le_mul_of_nonneg_right (by omega) hw0
      have hhw : 0 ≤ (u.height : Int) * (u.width : Int) := mul_nonneg hh0 hw0
      nlinarith [hsize']
    rw [Int.emod_eq_of_lt hnn hub]
  · obtain ⟨h1, h2, h3, h4⟩ := hc
    have hc1 : rectContains (displaySize u) ((u.width : Int) - x, y) := by
      dsimp only [rectContains, displaySize_width, displaySize_height]
      refine ⟨by omega, by omega, by linarith, by push_cast; omega⟩
    have hc2 : ¬ rectContains u ((u.width : Int) - x, y) := by
      dsimp only [rectContains]
      omega
    unfold controller_idx_and_offset
    rw [if_pos hc1, if_neg hc2]
    dsimp only
    have hnn : 0 ≤ (y - (u.height : Int)) * (u.width : Int) + ((u.width : Int) - x) := by
      have := mul_nonneg (show (0 : Int) ≤ y - (u.height : Int) by omega) hw0
      linarith
    have hub : (y - (u.height : Int)) * (u.width : Int) + ((u.width : Int) - x) < 65536 := by
      have hyw : (y - (u.height : Int)) * (u.width : Int)
          ≤ ((u.height : Int) - 1) * (u.width : Int) :=
        mul_le_mul_of_nonneg_right (by omega) hw0
      have hhw : 0 ≤ (u.height : Int) * (u.width : Int) := mul_nonneg hh0 hw0
      nlinarith [hsize']
    rw [Int.emod_eq_of_lt hnn hub]
  · have hc1 : ¬ rectContains (displaySize u) ((u.width : Int) - x, y) := by
      dsimp only [rectContains, displaySize_width, displaySize_height]
      push_cast
      omega
    have hcio : controller_idx_and_offset u (x, y) = Option.none := by
      unfold controller_idx_and_offset
      rw [if_neg hc1]
    refine ⟨hcio, fun dv luma => ?_⟩
    unfold draw_pixel
    rw [hcio]

/-- Witness for the amended C1: on 18×11 constituents, `(1, 0)` maps to
controller 0 offset 17, `(1, 11)` to controller 1 offset 17, and `(19, 5)`
to no controller. -/
theorem controller_mapping_amended_instance :
    controller_idx_and_offset ⟨18, 11⟩ (1, 0) = some (0, 17) ∧
    controller_idx_and_offset ⟨18, 11⟩ (1, 11) = some (1, 17) ∧
    controller_idx_and_offset ⟨18, 11⟩ (19, 5) = Option.none :=
  ⟨(controller_mapping_amended ⟨18, 11⟩ 1 0 (by decide)).1 (by decide),
   (controller_mapping_amended ⟨18, 11⟩ 1 11 (by decide)).2.1 (by decide),
   ((controller_mapping_amended ⟨18, 11⟩ 19 5 (by decide)).2.2 (by decide)).1⟩

end Lp586x
